import Mathlib

/-!
# Verification of the FaaS sandbox/deploy service

A shallow embedding, in Lean 4, of the core state and operations of the
FaaS repository (session store, sandbox streaming execution, build
pipeline, deployment orchestrator and the Redis-backed, per-caller
deployment store), together with theorems settling the specification's
claims about them.

Conventions of the embedding:
* Machine time (`Date.now()`) is a `Nat` of epoch milliseconds, passed
  explicitly to each operation that reads the clock.
* JavaScript objects become structures; `undefined`/absent fields become
  `Option`; the spread-merge `{ ...a, ...b }` is spelled out field by
  field following the source.
* The Redis key/value store is an association list from string keys to
  values; `set` replaces the binding for a key, `del` removes it.
* Remote calls (Vercel API, sandbox backend) are I/O: each embedded
  function takes the remote behaviour (response data, or the fact that
  the call threw) as an explicit argument and is otherwise pure.
-/

namespace Faas

/-! ## Deployment data model (lib/deployments-store.ts) -/

/-- `Deployment.status` values, from the `Deployment` interface in
`lib/deployments-store.ts`. -/
inductive DeployStatus where
  | building
  | queued
  | ready
  | error
  | canceled
deriving DecidableEq, Repr

/-- A terminal deployment status: ready, error, or canceled (spec §4.4
state machine). -/
def DeployStatus.isTerminal : DeployStatus → Bool
  | .ready => true
  | .error => true
  | .canceled => true
  | _ => false

/-- The `Deployment` record stored in Redis (`lib/deployments-store.ts`).
`createdAt` is the parsed epoch-milliseconds value of the stored ISO
string (it is only ever used via `new Date(x).getTime()` for sorting). -/
structure Deployment where
  id : String
  url : String
  functionName : String
  createdAt : Nat
  status : DeployStatus
  cronSchedule : Option String := none
  regions : Option (List String) := none
  errorMessage : Option String := none
  buildLogs : Option (List String) := none
deriving DecidableEq, Repr

/-- `readyState` values of the Vercel deployment API response
(`DeploymentResponse` in `lib/vercel-deploy.ts`). -/
inductive ReadyState where
  | QUEUED
  | BUILDING
  | READY
  | ERROR
  | CANCELED
deriving DecidableEq, Repr

/-- The shape returned by `createDeployment` / `getDeploymentStatus` in
`lib/vercel-deploy.ts`. -/
structure DeploymentResponse where
  id : String
  url : String
  readyState : ReadyState
  regions : Option (List String) := none
  errorMessage : Option String := none
deriving DecidableEq, Repr

/-! ## Redis model

The store talks to Redis through `get`/`set`/`del` on string keys holding
`Deployment` values, and `smembers`/`sadd`/`srem` on string keys holding
sets of ids. We model both as association lists. -/

/-- State of the Redis instance as used by `lib/deployments-store.ts`:
deployment records keyed by string, plus id sets keyed by string. -/
structure Redis where
  kv : List (String × Deployment)
  sets : List (String × List String)
deriving DecidableEq, Repr

/-- The empty Redis state. -/
def Redis.empty : Redis := ⟨[], []⟩

/-- `redis.get(k)`: first binding for `k`. -/
def Redis.get (s : Redis) (k : String) : Option Deployment :=
  (s.kv.find? (fun p => p.1 == k)).map (·.2)

/-- `redis.set(k, v)`: replace the binding for `k`. -/
def Redis.set (s : Redis) (k : String) (v : Deployment) : Redis :=
  { s with kv := (k, v) :: s.kv.filter (fun p => p.1 != k) }

/-- `redis.del(k)`: remove the binding for `k`; returns the deleted-key
count (1 when the key existed, 0 otherwise) alongside the new state. -/
def Redis.del (s : Redis) (k : String) : Redis × Nat :=
  ({ s with kv := s.kv.filter (fun p => p.1 != k) },
   if s.kv.any (fun p => p.1 == k) then 1 else 0)

/-- `redis.smembers(k)`: members of the set at `k` ([] when absent). -/
def Redis.smembers (s : Redis) (k : String) : List String :=
  ((s.sets.find? (fun p => p.1 == k)).map (·.2)).getD []

/-- Replace the set stored at `k`. -/
def Redis.putSet (s : Redis) (k : String) (ms : List String) : Redis :=
  { s with sets := (k, ms) :: s.sets.filter (fun p => p.1 != k) }

/-- `redis.sadd(k, m)`: add `m` to the set at `k` (no duplicates). -/
def Redis.sadd (s : Redis) (k : String) (m : String) : Redis :=
  if m ∈ s.smembers k then s else s.putSet k (s.smembers k ++ [m])

/-- `redis.srem(k, m)`: remove `m` from the set at `k`. -/
def Redis.srem (s : Redis) (k : String) (m : String) : Redis :=
  s.putSet k ((s.smembers k).erase m)

/-! ## Per-caller deployment store (lib/deployments-store.ts, scoped) -/

/-- `deploymentKey(userId, id)` from `lib/deployments-store.ts`. -/
def deploymentKey (userId id : String) : String :=
  "deployment:" ++ userId ++ ":" ++ id

/-- `deploymentIdsKey(userId)` from `lib/deployments-store.ts`. -/
def deploymentIdsKey (userId : String) : String :=
  "deployments:" ++ userId ++ ":ids"

/-- `getDeployment(userId, id)`. -/
def getDeployment (userId id : String) (s : Redis) : Option Deployment :=
  s.get (deploymentKey userId id)

/-- `addDeployment(userId, deployment)`: pipeline of `set` + `sadd`. -/
def addDeployment (userId : String) (d : Deployment) (s : Redis) : Redis :=
  (s.set (deploymentKey userId d.id) d).sadd (deploymentIdsKey userId) d.id

/-- The partial-update object built by callers of `updateDeployment`.
A `none` field is a key absent from the JS object, so the spread keeps
the existing value; `errorMessage`/`regions` carry the full new optional
value when their key is present. -/
structure DeploymentUpdates where
  status : Option DeployStatus := none
  url : Option String := none
  errorMessage : Option (Option String) := none
  regions : Option (List String) := none
deriving DecidableEq, Repr

/-- `{ ...existing, ...updates }` for the fields `updateDeployment` is
called with: absent keys keep the existing field. -/
def applyUpdates (existing : Deployment) (u : DeploymentUpdates) : Deployment :=
  { existing with
    status := u.status.getD existing.status
    url := u.url.getD existing.url
    errorMessage := u.errorMessage.getD existing.errorMessage
    regions := (u.regions.map some).getD existing.regions }

/-- `updateDeployment(userId, id, updates)`: read-modify-write; returns
the updated record (or `none` when the record does not exist, in which
case the store is untouched). -/
def updateDeployment (userId id : String) (u : DeploymentUpdates) (s : Redis) :
    Redis × Option Deployment :=
  match getDeployment userId id s with
  | none => (s, none)
  | some existing =>
    let updated := applyUpdates existing u
    (s.set (deploymentKey userId id) updated, some updated)

/-- `deleteDeployment(userId, id)`: pipeline of `del` + `srem`; the
boolean is `results[0] > 0`. -/
def deleteDeployment (userId id : String) (s : Redis) : Redis × Bool :=
  let (s1, n) := s.del (deploymentKey userId id)
  ((s1.srem (deploymentIdsKey userId) id), n > 0)

/-- Stable insertion of a record into a list sorted by `createdAt`
descending (models the stable JS `Array.prototype.sort` with comparator
`(a, b) => b.createdAt - a.createdAt`). -/
def insertByCreatedAt (d : Deployment) : List Deployment → List Deployment
  | [] => [d]
  | x :: xs =>
    if x.createdAt < d.createdAt then d :: x :: xs
    else x :: insertByCreatedAt d xs

/-- Sort records by `createdAt` descending (stable). -/
def sortByCreatedAt : List Deployment → List Deployment
  | [] => []
  | x :: xs => insertByCreatedAt x (sortByCreatedAt xs)

/-- `getAllDeployments(userId)`: read the caller's id set, fetch each
record, drop the missing ones, sort by `createdAt` descending. -/
def getAllDeployments (userId : String) (s : Redis) : List Deployment :=
  sortByCreatedAt ((s.smembers (deploymentIdsKey userId)).filterMap
    (fun id => getDeployment userId id s))

/-! ## Caller partition key (getUserId in lib/deployments-store.ts) -/

/-- JS truthiness of a nullable string: `null`/`undefined` and `""` are
falsy. -/
def jsTruthy : Option String → Bool
  | none => false
  | some s => s != ""

/-- `getUserId(request)`: first entry of `x-forwarded-for` (trimmed) when
that header is truthy, else `x-real-ip` when truthy, else `"anonymous"`. -/
def getUserId (xForwardedFor xRealIp : Option String) : String :=
  if jsTruthy xForwardedFor then
    (((xForwardedFor.getD "").splitOn ",").headD "").trim
  else if jsTruthy xRealIp then xRealIp.getD ""
  else "anonymous"

/-! ## Deployment status poll loop (app/api/deploy/route.ts) -/

/-- The `readyState → status` mapping inside `pollDeploymentStatus`
(READY, ERROR, CANCELED, QUEUED handled; everything else `building`). -/
def mapReadyState : ReadyState → DeployStatus
  | .READY => .ready
  | .ERROR => .error
  | .CANCELED => .canceled
  | .QUEUED => .queued
  | .BUILDING => .building

/-- The mapping used when the record is first persisted in the deploy
route (READY, ERROR, QUEUED handled; everything else — including
CANCELED — defaults to `building`). -/
def mapInitialReadyState : ReadyState → DeployStatus
  | .READY => .ready
  | .ERROR => .error
  | .QUEUED => .queued
  | _ => .building

/-- JS truthiness + nonemptiness test `status.regions &&
status.regions.length > 0`. -/
def regionsNonempty : Option (List String) → Bool
  | some (_ :: _) => true
  | _ => false

/-- The `updates` object one poll iteration passes to
`updateDeployment`: always status/url/errorMessage, and regions only
when the API returned a nonempty list. -/
def pollUpdates (r : DeploymentResponse) : DeploymentUpdates :=
  { status := some (mapReadyState r.readyState)
    url := some r.url
    errorMessage := some r.errorMessage
    regions := if regionsNonempty r.regions then r.regions else none }

/-- One iteration of the poll loop after the 5-second sleep. The remote
query result is `none` when `getDeploymentStatus` threw (the catch block
swallows the error and keeps polling). Returns the new store and whether
the loop breaks (a terminal mapped status). -/
def pollStep (userId deploymentId : String) (s : Redis)
    (q : Option DeploymentResponse) : Redis × Bool :=
  match q with
  | none => (s, false)
  | some r =>
    let newStatus := mapReadyState r.readyState
    let s1 := (updateDeployment userId deploymentId (pollUpdates r) s).1
    (s1, newStatus.isTerminal)

/-- The `while (attempts < maxAttempts)` loop, with the successive
remote query results given as a list (element `i` is what iteration `i`
observed). -/
def pollLoopAux (userId deploymentId : String) :
    Nat → Redis → List (Option DeploymentResponse) → Redis
  | 0, s, _ => s
  | _ + 1, s, [] => s
  | fuel + 1, s, q :: qs =>
    let (s1, stop) := pollStep userId deploymentId s q
    if stop then s1 else pollLoopAux userId deploymentId fuel s1 qs

/-- `pollDeploymentStatus(userId, deploymentId)` with `maxAttempts = 60`. -/
def pollDeploymentStatus (userId deploymentId : String) (s : Redis)
    (qs : List (Option DeploymentResponse)) : Redis :=
  pollLoopAux userId deploymentId 60 s qs

/-! ## Session data model and store (lib/session-store.ts) -/

/-- Session status values. The stored union in `session-store.ts` lists
pending/running/stopping/stopped/failed; the snapshot and deploy routes
additionally write the string `"paused"`, and the run/build validation
compares against it, so the runtime value set includes `paused`. -/
inductive SessionStatus where
  | pending
  | running
  | stopping
  | stopped
  | paused
  | failed
deriving DecidableEq, Repr

/-- The `Session` record of `lib/session-store.ts` (`timeout` and
`createdAt` as epoch milliseconds). -/
structure Session where
  sandboxId : String
  status : SessionStatus
  timeout : Nat
  snapshotId : Option String := none
  createdAt : Nat
deriving DecidableEq, Repr

/-- The process-wide session slot (`currentSession`), `none` when no
session exists. -/
def SessionSlot := Option Session

/-- `updateSession(updates)`: merge into the current session when one
exists, else a no-op. Each call site passes a fixed set of keys; the
merge is given explicitly per call site below through this helper. -/
def updateSessionWith (f : Session → Session) : Option Session → Option Session
  | none => none
  | some s => some (f s)

/-- The 2-minute grace window (`2 * 60 * 1000` ms) added to `Date.now()`
by the run/build/deploy routes on success. -/
def graceWindowMs : Nat := 2 * 60 * 1000

/-- The 5-minute initial lifetime (`5 * 60 * 1000` ms) used by the
session-create and restore routes. -/
def initialLifetimeMs : Nat := 5 * 60 * 1000

/-! ## Session validation (lib/session-validation.ts) -/

/-- Validation outcome: either the session (with its id) or the distinct
error message of the rejecting branch. -/
inductive Validation where
  | ok (session : Session) (sandboxId : String)
  | rejected (msg : String)
deriving DecidableEq, Repr

/-- Message for a missing session. -/
def noSessionMsg : String := "No active session. Please create a new session."

/-- Message for an expired session. -/
def expiredMsg : String := "Session has expired. Please create a new session."

/-- Message for a paused session. -/
def pausedMsg : String := "Session is paused. Click \x27Resume\x27 to continue."

/-- `validateActiveSession()`: missing (or falsy `sandboxId`), then
expired (`Date.now() > session.timeout`), then paused — in that order;
the run route inlines the same three checks with the same messages. -/
def validateActiveSession (now : Nat) : Option Session → Validation
  | none => .rejected noSessionMsg
  | some s =>
    if s.sandboxId == "" then .rejected noSessionMsg
    else if now > s.timeout then .rejected expiredMsg
    else if s.status == .paused then .rejected pausedMsg
    else .ok s s.sandboxId

/-! ## Streaming execution (lib/sandbox.ts executeCodeStreaming) -/

/-- One event of the run SSE stream: the generator yields
stdout/stderr/exit, the route adds error (on exception) and the final
bare done event. The exit payload is the numeric exit code that the
source stringifies. -/
inductive RunEvent where
  | stdout (data : String)
  | stderr (data : String)
  | exit (code : Int)
  | errorEv (data : String)
  | doneEv
deriving DecidableEq, Repr

/-- A log chunk of the detached command feed: origin stream
(`true` = stderr) and its text. -/
structure LogChunk where
  isStderr : Bool
  data : String
deriving DecidableEq, Repr

/-- Behaviour of the sandbox backend across one streaming execution:
either the Bun install step reports failure, or some backend call throws
after `pre` log chunks were already yielded, or the detached command
completes with a log feed and an exit code. -/
inductive ExecBehavior where
  | bunInstallFails
  | throws (pre : List LogChunk) (msg : String)
  | completes (logs : List LogChunk) (exitCode : Int)
deriving DecidableEq, Repr

/-- Re-emit a log chunk tagged by its origin stream. -/
def logEvent (c : LogChunk) : RunEvent :=
  if c.isStderr then .stderr c.data else .stdout c.data

/-- `executeCodeStreaming(code, sandboxId)` as the list of events the
generator yields, plus the exception message when one escapes. On Bun
install failure it yields a stderr line and `exit 1`; on completion it
yields each log chunk in arrival order then one exit event. -/
def executeCodeStreaming : ExecBehavior → List RunEvent × Option String
  | .bunInstallFails => ([.stderr "Failed to install Bun runtime", .exit 1], none)
  | .throws pre msg => (pre.map logEvent, some msg)
  | .completes logs code => (logs.map logEvent ++ [.exit code], none)

/-! ## Run route (app/api/run/route.ts) -/

/-- Response of the run route: a 400 JSON error issued before the
stream, or the SSE stream with its emitted events and whether
`controller.close()` ran. -/
inductive RunResponse where
  | badRequest (msg : String)
  | sse (events : List RunEvent) (closed : Bool)
deriving DecidableEq, Repr

/-- `POST /api/run`: validate code and session (inline checks identical
to `validateActiveSession`), then stream. `nowV` is the clock at
validation, `nowC` at stream completion. Returns the response, the
session slot after the request, and whether any sandbox backend call was
made. -/
def runPOST (nowV nowC : Nat) (code : Option String) (st : Option Session)
    (b : ExecBehavior) : RunResponse × Option Session × Bool :=
  if !(jsTruthy code) then (.badRequest "Code is required", st, false)
  else
    match validateActiveSession nowV st with
    | .rejected msg => (.badRequest msg, st, false)
    | .ok _ _ =>
      let (evs, exc) := executeCodeStreaming b
      match exc with
      | none =>
        (.sse (evs ++ [.doneEv]) true,
         updateSessionWith (fun s => { s with timeout := nowC + graceWindowMs }) st,
         true)
      | some m => (.sse (evs ++ [.errorEv m]) true, st, true)

/-! ## Build pipeline (apps/web/lib/sandbox.ts buildCode) -/

/-- One event of the build generator: log, error or done (the event
vocabulary of `buildCode`). -/
inductive BuildEvent where
  | log (data : String)
  | error (data : String)
  | done (data : String)
deriving DecidableEq, Repr

/-- Behaviour of the sandbox backend across one build: a backend call
throws after the given events were already yielded, or the Bun install
step reports failure, or the detached bundler runs with a log feed and
an exit code. -/
inductive BuildBehavior where
  | throwsBefore (emitted : List BuildEvent) (msg : String)
  | installFails (installLogs : List String)
  | bundler (installLogs : List String) (blogs : List LogChunk) (exitCode : Int)
deriving DecidableEq, Repr

/-- The fixed log lines `buildCode` yields before the Bun install logs. -/
def buildPrelude : List BuildEvent :=
  [.log "Connecting to sandbox...",
   .log "Creating build directories...",
   .log "Setting up @faas/sdk...",
   .log "SDK ready",
   .log "Writing source code...",
   .log "Source code written to /tmp/src/handler.ts",
   .log "Checking Bun runtime..."]

/-- Bundler log chunks: stderr lines become error-typed events, the rest
log events. -/
def buildLogEvent (c : LogChunk) : BuildEvent :=
  if c.isStderr then .error c.data else .log c.data

/-- The fixed artifact path carried by the done event. -/
def buildArtifactPath : String := "/tmp/dist/index.js"

/-- `buildCode(code, sandboxId)` as the list of events the generator
yields plus the escaping exception, if any: prelude logs, install logs,
then either an install-failure error, or the bundler logs followed by a
final error (non-zero exit) or a success log and one done event. -/
def buildCode : BuildBehavior → List BuildEvent × Option String
  | .throwsBefore emitted msg => (emitted, some msg)
  | .installFails il =>
    (buildPrelude ++ il.map .log ++ [.error "Failed to install Bun"], none)
  | .bundler il blogs code =>
    let pre := buildPrelude ++ il.map .log ++ [.log "Running bun build..."]
      ++ blogs.map buildLogEvent
    if code != 0 then
      (pre ++ [.error ("Build failed with exit code " ++ toString code)], none)
    else
      (pre ++ [.log "Build completed successfully!", .done buildArtifactPath], none)

/-! ## Build route (app/api/build, src/unnamed/part_014) -/

/-- Response of the build route: 400 before the stream, or the SSE
stream (the route forwards the generator events verbatim; its catch
block appends one error event). -/
inductive BuildResponse where
  | badRequest (msg : String)
  | sse (events : List BuildEvent) (closed : Bool)
deriving DecidableEq, Repr

/-- `POST /api/build`: validate code and session via
`validateActiveSession`, stream the build events, and on a stream that
ends without exception set the session timeout to completion time plus
the grace window (unconditionally — the route does not inspect the
events). -/
def buildPOST (nowV nowC : Nat) (code : Option String) (st : Option Session)
    (bb : BuildBehavior) : BuildResponse × Option Session :=
  if !(jsTruthy code) then (.badRequest "Code is required", st)
  else
    match validateActiveSession nowV st with
    | .rejected msg => (.badRequest msg, st)
    | .ok _ _ =>
      let (evs, exc) := buildCode bb
      match exc with
      | none =>
        (.sse evs true,
         updateSessionWith (fun s => { s with timeout := nowC + graceWindowMs }) st)
      | some m => (.sse (evs ++ [.error m]) true, st)

/-! ## Deploy route (app/api/deploy/route.ts) -/

/-- One event of the deploy SSE stream. -/
inductive DeployEvent where
  | phase (data : String)
  | log (data : String)
  | error (data : String)
  | buildDone (data : String)
  | deployDone (id url functionName : String) (status : DeployStatus)
      (cronSchedule : Option String) (functionUrl : String)
  | snapshotEv (id : String)
deriving DecidableEq, Repr

/-- Behaviour of the remote calls the deploy route makes after a
successful build: the `cat` of the artifact, the Vercel
`createDeployment` call (left = it threw with this message), and the
snapshot attempt (`none` = `createSnapshot` threw). -/
structure DeployPhase2 where
  catOk : Bool
  bundled : String
  createResult : Except String DeploymentResponse
  snapshotResult : Option String
deriving Repr

/-- Response of the deploy route. -/
inductive DeployResponse where
  | badRequest (msg : String)
  | sse (events : List DeployEvent) (closed : Bool)
deriving DecidableEq, Repr

/-- Everything one deploy request produces: the response, the deployment
store afterwards, the session slot afterwards, whether
`generateBuildOutput` (manifest generation) ran, and whether the
background poll loop was launched. -/
structure DeployOutcome where
  response : DeployResponse
  store : Redis
  session : Option Session
  manifestGenerated : Bool
  pollStarted : Bool
deriving Repr

/-- Map the build generator events the deploy route re-emits, and
whether a done event was seen (`buildSucceeded`). -/
def deployBuildEvents : List BuildEvent → List DeployEvent × Bool
  | [] => ([], false)
  | e :: es =>
    let (tail, ok) := deployBuildEvents es
    match e with
    | .log d => (.log d :: tail, ok)
    | .error d => (.error d :: tail, ok)
    | .done d => (.buildDone d :: tail, true)

/-- `POST /api/deploy`: validate, stream the build phase, abort on build
failure, read the artifact, generate the manifest, create the remote
deployment, persist the record, maybe launch the poll loop, emit
deploy-done, then best-effort snapshot/pause and extend the session
timeout. `nowV`/`nowC` are the clock at validation / during the deploy
phase. -/
def deployPOST (nowV nowC : Nat) (userId : String) (code : Option String)
    (functionName : String) (cronSchedule : Option String)
    (regions : Option (List String)) (st : Option Session)
    (bb : BuildBehavior) (p2 : DeployPhase2) (store : Redis) : DeployOutcome :=
  if !(jsTruthy code) then
    ⟨.badRequest "Code is required", store, st, false, false⟩
  else
    match validateActiveSession nowV st with
    | .rejected msg => ⟨.badRequest msg, store, st, false, false⟩
    | .ok _ _ =>
      let (bevs, bexc) := buildCode bb
      let (mapped, buildSucceeded) := deployBuildEvents bevs
      let evs0 := DeployEvent.phase "build" :: mapped
      match bexc with
      | some m =>
        -- a build exception reaches the route catch: one error event, close
        ⟨.sse (evs0 ++ [.error m]) true, store, st, false, false⟩
      | none =>
        if !buildSucceeded then
          ⟨.sse (evs0 ++ [.error "Build failed"]) true, store, st, false, false⟩
        else if !p2.catOk then
          ⟨.sse (evs0 ++ [.error "Failed to read bundled code"]) true,
           store, st, false, false⟩
        else
          let evs1 := evs0 ++ [.phase "deploy", .log "Creating Vercel deployment..."]
          -- generateBuildOutput(bundledCode, functionName, cronSchedule) runs here
          match p2.createResult with
          | .error m => ⟨.sse (evs1 ++ [.error m]) true, store, st, true, false⟩
          | .ok dr =>
            let deployment : Deployment :=
              { id := dr.id
                url := dr.url
                functionName := functionName
                createdAt := nowC
                status := mapInitialReadyState dr.readyState
                cronSchedule := cronSchedule
                regions := match regions with
                  | some l => some l
                  | none => dr.regions
                errorMessage := dr.errorMessage }
            let store1 := addDeployment userId deployment store
            let pollStarted :=
              deployment.status == .building || deployment.status == .queued
            let evs2 := evs1 ++
              [.log ("Deployment started: " ++ deployment.id),
               .deployDone deployment.id deployment.url deployment.functionName
                 deployment.status deployment.cronSchedule
                 (deployment.url ++ "/api/" ++ functionName)]
            match p2.snapshotResult with
            | some sid =>
              let st1 := updateSessionWith
                (fun s => { s with snapshotId := some sid, status := .paused }) st
              let st2 := updateSessionWith
                (fun s => { s with timeout := nowC + graceWindowMs }) st1
              ⟨.sse (evs2 ++ [.snapshotEv sid,
                 .log ("Sandbox paused. Snapshot: " ++ sid)]) true,
               store1, st2, true, pollStarted⟩
            | none =>
              let st2 := updateSessionWith
                (fun s => { s with timeout := nowC + graceWindowMs }) st
              ⟨.sse (evs2 ++
                 [.log "Warning: Failed to create snapshot after deployment"]) true,
               store1, st2, true, pollStarted⟩

/-! ## Deployment delete route (app/api/deployments/[id]/route.ts) -/

/-- Response of the scoped DELETE handler. -/
inductive DeleteResponse where
  | notFound
  | success
deriving DecidableEq, Repr

/-- `DELETE /api/deployments/[id]` (user-scoped version): look the record
up under the caller partition; 404 when absent; otherwise attempt the
remote delete — any failure (`remoteErr = some msg`) is caught, at most
logged, and ignored — then delete the local record and report success. -/
def deploymentDELETE (userId id : String) (store : Redis)
    (_remoteErr : Option String) : DeleteResponse × Redis :=
  match getDeployment userId id store with
  | none => (.notFound, store)
  | some _ =>
    -- deleteVercelDeployment(id): outcome `remoteErr` swallowed by the catch
    (.success, (deleteDeployment userId id store).1)

/-! ## Session-mutating routes and the session state machine -/

/-- `POST /api/session` (start): best-effort stop of the previous
sandbox, then create a fresh one; on success the slot is replaced by a
new running session with a 5-minute lifetime and no snapshot id; when
`createSandbox` throws the catch returns 500 and the slot is unchanged. -/
def sessionPOST (now : Nat) (newSandboxId : String) (ok : Bool)
    (st : Option Session) : Option Session :=
  if ok then
    some { sandboxId := newSandboxId, status := .running,
           timeout := now + initialLifetimeMs, snapshotId := none,
           createdAt := now }
  else st

/-- `POST /api/snapshot`: requires a session with a truthy sandboxId;
`createSnapshot` throwing (`snapResult = none`) leaves the slot
unchanged; on success the session gains the snapshot id and becomes
paused. -/
def snapshotPOST (snapResult : Option String) (st : Option Session) :
    Option Session :=
  match st with
  | none => st
  | some s =>
    if s.sandboxId == "" then st
    else
      match snapResult with
      | none => st
      | some sid =>
        updateSessionWith
          (fun s => { s with snapshotId := some sid, status := .paused }) st

/-- The snapshot id a restore request resolves: the body value when
truthy, else the current session value (`snapshotId = body.snapshotId
|| session?.snapshotId` in src/unnamed/part_005). -/
def resolveSnapshotId (bodySnapshotId : Option String)
    (st : Option Session) : Option String :=
  if jsTruthy bodySnapshotId then bodySnapshotId
  else st.bind (·.snapshotId)

/-- `POST /api/session/restore` (src/unnamed/part_005): resolve the
snapshot id from the body, falling back to the current session; reject
when none; otherwise create a sandbox from it and replace the slot with
a running session that keeps the restored snapshot id. `ok = false`
means `createSandbox` threw (catch: slot unchanged). -/
def restorePOST (now : Nat) (bodySnapshotId : Option String)
    (newSandboxId : String) (ok : Bool) (st : Option Session) :
    Option Session :=
  if !(jsTruthy (resolveSnapshotId bodySnapshotId st)) then st
  else if ok then
    some { sandboxId := newSandboxId, status := .running,
           timeout := now + initialLifetimeMs,
           snapshotId := resolveSnapshotId bodySnapshotId st,
           createdAt := now }
  else st

/-- `POST /api/stop`: requires a session with a truthy sandboxId; stops
the sandbox then clears the slot; when `stopSandbox` throws the catch
returns 500 before `clearSession` runs, leaving the slot unchanged. -/
def stopPOST (stopOk : Bool) (st : Option Session) : Option Session :=
  match st with
  | none => st
  | some s =>
    if s.sandboxId == "" then st
    else if stopOk then none
    else st

/-- One operation of the session lifecycle named by the spec: start,
run, build, deploy, snapshot, restore, stop — each carrying the clock
values and remote behaviour of that invocation. -/
inductive Op where
  | startOp (now : Nat) (sbId : String) (ok : Bool)
  | runOp (nowV nowC : Nat) (code : Option String) (b : ExecBehavior)
  | buildOp (nowV nowC : Nat) (code : Option String) (bb : BuildBehavior)
  | deployOp (nowV nowC : Nat) (userId : String) (code : Option String)
      (fn : String) (cron : Option String) (regions : Option (List String))
      (bb : BuildBehavior) (p2 : DeployPhase2)
  | snapshotOp (snapResult : Option String)
  | restoreOp (now : Nat) (body : Option String) (sbId : String) (ok : Bool)
  | stopOp (ok : Bool)

/-- The session-slot effect of one operation (the deploy route session
effect does not depend on the deployment store, which is passed as
empty). -/
def stepSession (op : Op) (st : Option Session) : Option Session :=
  match op with
  | .startOp now sb ok => sessionPOST now sb ok st
  | .runOp nV nC c b => (runPOST nV nC c st b).2.1
  | .buildOp nV nC c bb => (buildPOST nV nC c st bb).2
  | .deployOp nV nC u c fn cron rg bb p2 =>
    (deployPOST nV nC u c fn cron rg st bb p2 Redis.empty).session
  | .snapshotOp r => snapshotPOST r st
  | .restoreOp n b sb ok => restorePOST n b sb ok st
  | .stopOp ok => stopPOST ok st

/-- The session slot after a sequence of operations, starting from no
session. -/
def runOps (ops : List Op) : Option Session :=
  ops.foldl (fun st op => stepSession op st) none

/-! ## Association-list and Redis lemmas -/

theorem find?_filter_ne {α : Type} (l : List (String × α)) (k k' : String)
    (h : k' ≠ k) :
    (l.filter (fun p => p.1 != k)).find? (fun p => p.1 == k') =
      l.find? (fun p => p.1 == k') := by
  induction l with
  | nil => rfl
  | cons a t ih =>
    by_cases hk : a.1 = k
    · have h1 : (a.1 != k) = false := by simp [hk]
      have h2 : (a.1 == k') = false := by simp [hk]; exact fun e => h e.symm
      simp [List.filter, List.find?, h1, h2, ih]
    · have h1 : (a.1 != k) = true := by simp [hk]
      by_cases hk' : a.1 = k'
      · have h3 : (k' != k) = true := by simp [h]
        simp [List.filter, List.find?, h1, hk', h3]
      · have h2 : (a.1 == k') = false := by simp [hk']
        simp [List.filter, List.find?, h1, h2, ih]

theorem find?_filter_self {α : Type} (l : List (String × α)) (k : String) :
    (l.filter (fun p => p.1 != k)).find? (fun p => p.1 == k) = none := by
  induction l with
  | nil => rfl
  | cons a t ih =>
    by_cases hk : a.1 = k
    · have h1 : (a.1 != k) = false := by simp [hk]
      simp [List.filter, h1, ih]
    · have h1 : (a.1 != k) = true := by simp [hk]
      have h2 : (a.1 == k) = false := by simp [hk]
      simp [List.filter, List.find?, h1, h2, ih]

theorem Redis.get_set_self (s : Redis) (k : String) (v : Deployment) :
    (s.set k v).get k = some v := by
  simp [Redis.get, Redis.set, List.find?]

theorem Redis.get_set_ne (s : Redis) (k k' : String) (v : Deployment)
    (h : k' ≠ k) : (s.set k v).get k' = s.get k' := by
  have h2 : (k == k') = false := by simp; exact fun e => h e.symm
  simp [Redis.get, Redis.set, List.find?, h2, find?_filter_ne _ _ _ h]

theorem Redis.get_del_self (s : Redis) (k : String) :
    (s.del k).1.get k = none := by
  simp [Redis.get, Redis.del, find?_filter_self]

theorem Redis.get_del_ne (s : Redis) (k k' : String) (h : k' ≠ k) :
    (s.del k).1.get k' = s.get k' := by
  simp [Redis.get, Redis.del, find?_filter_ne _ _ _ h]

theorem Redis.get_putSet (s : Redis) (k : String) (ms : List String)
    (k' : String) : (s.putSet k ms).get k' = s.get k' := rfl

theorem Redis.get_sadd (s : Redis) (k m k' : String) :
    (s.sadd k m).get k' = s.get k' := by
  unfold Redis.sadd
  split <;> simp [Redis.get_putSet]

theorem Redis.get_srem (s : Redis) (k m k' : String) :
    (s.srem k m).get k' = s.get k' := rfl

theorem Redis.smembers_set (s : Redis) (k : String) (v : Deployment)
    (k' : String) : (s.set k v).smembers k' = s.smembers k' := rfl

theorem Redis.smembers_putSet_self (s : Redis) (k : String)
    (ms : List String) : (s.putSet k ms).smembers k = ms := by
  simp [Redis.smembers, Redis.putSet, List.find?]

theorem Redis.smembers_putSet_ne (s : Redis) (k : String) (ms : List String)
    (k' : String) (h : k' ≠ k) :
    (s.putSet k ms).smembers k' = s.smembers k' := by
  have h2 : (k == k') = false := by simp; exact fun e => h e.symm
  simp [Redis.smembers, Redis.putSet, List.find?, h2,
    find?_filter_ne _ _ _ h]

theorem Redis.smembers_sadd_ne (s : Redis) (k m k' : String) (h : k' ≠ k) :
    (s.sadd k m).smembers k' = s.smembers k' := by
  unfold Redis.sadd
  split
  · rfl
  · exact Redis.smembers_putSet_ne _ _ _ _ h

theorem Redis.mem_smembers_sadd_self (s : Redis) (k m : String) :
    m ∈ (s.sadd k m).smembers k := by
  unfold Redis.sadd
  split
  · assumption
  · rw [Redis.smembers_putSet_self]; simp

/-! ## Sorting lemmas (getAllDeployments) -/

theorem mem_insertByCreatedAt (d x : Deployment) (l : List Deployment) :
    x ∈ insertByCreatedAt d l ↔ x = d ∨ x ∈ l := by
  induction l with
  | nil => simp [insertByCreatedAt]
  | cons a t ih =>
    unfold insertByCreatedAt
    split
    · simp
    · simp [ih]; tauto

theorem mem_sortByCreatedAt (x : Deployment) (l : List Deployment) :
    x ∈ sortByCreatedAt l ↔ x ∈ l := by
  induction l with
  | nil => simp [sortByCreatedAt]
  | cons a t ih => simp [sortByCreatedAt, mem_insertByCreatedAt, ih]

/-! ## Partition-key lemmas -/

/-- A string with no colon character. -/
def colonFree (s : String) : Prop := ':' ∉ s.data

theorem append_colon_inj (a : List Char) :
    ∀ (b i j : List Char), ':' ∉ a → ':' ∉ b →
      a ++ ':' :: i = b ++ ':' :: j → a = b ∧ i = j := by
  induction a with
  | nil =>
    intro b i j _ hb h
    cases b with
    | nil => simpa using h
    | cons c t =>
      simp at h
      exact absurd (h.1 ▸ List.mem_cons_self c t) (h.1 ▸ hb)
  | cons c t ih =>
    intro b i j ha hb h
    cases b with
    | nil =>
      simp at h
      exact absurd (h.1 ▸ List.mem_cons_self c t) (h.1 ▸ ha)
    | cons c' t' =>
      simp at h
      obtain ⟨rfl, h2⟩ := h
      have ha' : ':' ∉ t := fun m => ha (List.mem_cons_of_mem _ m)
      have hb' : ':' ∉ t' := fun m => hb (List.mem_cons_of_mem _ m)
      obtain ⟨rfl, rfl⟩ := ih t' i j ha' hb' h2
      exact ⟨rfl, rfl⟩

theorem deploymentKey_ne (A B i j : String) (hA : colonFree A)
    (hB : colonFree B) (hne : A ≠ B) :
    deploymentKey A i ≠ deploymentKey B j := by
  intro h
  apply hne
  have hdata := congrArg String.data h
  simp only [deploymentKey, String.data_append, List.append_assoc,
    List.singleton_append] at hdata
  have h2 := List.append_cancel_left hdata
  exact String.ext (append_colon_inj A.data B.data i.data j.data hA hB h2).1

theorem deploymentIdsKey_inj (A B : String)
    (h : deploymentIdsKey A = deploymentIdsKey B) : A = B := by
  have hdata := congrArg String.data h
  simp only [deploymentIdsKey, String.data_append, List.append_assoc] at hdata
  have h2 := List.append_cancel_left hdata
  exact String.ext (List.append_cancel_right h2)

/-! ## Store facts shared by the partition claims -/

theorem Redis.kv_sadd (s : Redis) (k m : String) : (s.sadd k m).kv = s.kv := by
  unfold Redis.sadd Redis.putSet
  split <;> rfl

theorem getDeployment_add_self (u : String) (d : Deployment) (s : Redis) :
    getDeployment u d.id (addDeployment u d s) = some d := by
  simp [getDeployment, addDeployment, Redis.get_sadd, Redis.get_set_self]

theorem mem_getAllDeployments_add_self (u : String) (d : Deployment)
    (s : Redis) : d ∈ getAllDeployments u (addDeployment u d s) := by
  unfold getAllDeployments
  rw [mem_sortByCreatedAt, List.mem_filterMap]
  exact ⟨d.id, Redis.mem_smembers_sadd_self _ _ _, getDeployment_add_self u d s⟩

theorem deleteDeployment_add_self (u : String) (d : Deployment) (s : Redis) :
    (deleteDeployment u d.id (addDeployment u d s)).2 = true := by
  have hkv : (addDeployment u d s).kv =
      (deploymentKey u d.id, d) ::
        s.kv.filter (fun p => p.1 != deploymentKey u d.id) := by
    unfold addDeployment
    rw [Redis.kv_sadd]
    rfl
  simp [deleteDeployment, Redis.del, hkv, List.any]

/-! ## Claim theorems: the deployment store partition -/

/-- A concrete record used by the partition counterexample. -/
def dCex : Deployment :=
  { id := "y", url := "https://cex", functionName := "f", createdAt := 0,
    status := .ready }

/-- C7 counterexample: partition keys are joined with a colon, so key
material can be respliced. The record `dCex` is created under partition
key "u:x" (with id "y"); a `get` issued under the distinct partition key
"u" (with id "x:y") returns that very record, because both resolve to
the Redis key "deployment:u:x:y". -/
theorem partition_isolation_cex :
    ("u" : String) ≠ "u:x" ∧
    getDeployment "u" "x:y" (addDeployment "u:x" dCex Redis.empty) =
      some dCex := by
  constructor
  · decide
  · rfl

/-- C7 (amended): when the two partition keys contain no colon character
(so the string-concatenated Redis keys cannot collide), a deployment
created under key A is invisible to get/list under key B, and a delete
issued under key B never removes a record of partition A. -/
theorem partition_isolation_colonFree (A B : String) (hA : colonFree A)
    (hB : colonFree B) (hne : A ≠ B) (s : Redis) (d : Deployment)
    (i j : String) :
    getDeployment B i (addDeployment A d s) = getDeployment B i s ∧
    getAllDeployments B (addDeployment A d s) = getAllDeployments B s ∧
    getDeployment A i ((deleteDeployment B j s).1) = getDeployment A i s := by
  have hkey : ∀ i' j' : String, deploymentKey B i' ≠ deploymentKey A j' :=
    fun i' j' => deploymentKey_ne B A i' j' hB hA (Ne.symm hne)
  have hget : ∀ i' : String,
      getDeployment B i' (addDeployment A d s) = getDeployment B i' s := by
    intro i'
    unfold getDeployment addDeployment
    rw [Redis.get_sadd, Redis.get_set_ne _ _ _ _ (hkey i' d.id)]
  refine ⟨hget i, ?_, ?_⟩
  · have hids : deploymentIdsKey B ≠ deploymentIdsKey A :=
      fun h => (Ne.symm hne) (deploymentIdsKey_inj B A h)
    unfold getAllDeployments
    rw [show (addDeployment A d s).smembers (deploymentIdsKey B) =
        s.smembers (deploymentIdsKey B) by
      unfold addDeployment
      rw [Redis.smembers_sadd_ne _ _ _ _ hids, Redis.smembers_set]]
    rw [List.filterMap_congr (fun a _ => hget a)]
  · unfold getDeployment deleteDeployment
    rw [Redis.get_srem,
      Redis.get_del_ne _ _ _ (deploymentKey_ne A B i j hA hB hne)]

/-- C7 amended witness at concrete colon-free keys "a" and "b". -/
theorem partition_isolation_colonFree_witness :
    colonFree "a" ∧ colonFree "b" ∧ ("a" : String) ≠ "b" ∧
    (getDeployment "b" "y" (addDeployment "a" dCex Redis.empty) =
      getDeployment "b" "y" Redis.empty ∧
    getAllDeployments "b" (addDeployment "a" dCex Redis.empty) =
      getAllDeployments "b" Redis.empty ∧
    getDeployment "a" "y" ((deleteDeployment "b" "z" Redis.empty).1) =
      getDeployment "a" "y" Redis.empty) :=
  ⟨by unfold colonFree; decide, by unfold colonFree; decide, by decide,
   partition_isolation_colonFree "a" "b" (by unfold colonFree; decide)
    (by unfold colonFree; decide) (by decide) Redis.empty dCex "y" "z"⟩

/-- C9: a request with neither forwarding header resolves to the constant
partition key "anonymous"; all such callers therefore share one
partition — a record added there is readable, listed and deletable via
the same resolved key. -/
theorem anonymous_shared_partition :
    getUserId none none = "anonymous" ∧
    ∀ (s : Redis) (d : Deployment),
      getDeployment "anonymous" d.id (addDeployment "anonymous" d s) =
        some d ∧
      d ∈ getAllDeployments "anonymous" (addDeployment "anonymous" d s) ∧
      (deleteDeployment "anonymous" d.id (addDeployment "anonymous" d s)).2 =
        true := by
  refine ⟨rfl, fun s d => ⟨getDeployment_add_self _ _ _,
    mem_getAllDeployments_add_self _ _ _, deleteDeployment_add_self _ _ _⟩⟩

/-- C10: the scoped DELETE handler, given a record present in the caller
partition, reports success and removes the local record whatever the
remote delete did; the response and resulting store do not depend on the
remote outcome at all. -/
theorem delete_swallows_remote_errors (u i : String) (s : Redis)
    (e : Option String) (d : Deployment)
    (h : getDeployment u i s = some d) :
    (deploymentDELETE u i s e).1 = .success ∧
    getDeployment u i (deploymentDELETE u i s e).2 = none ∧
    ∀ e2 : Option String, deploymentDELETE u i s e = deploymentDELETE u i s e2 := by
  unfold deploymentDELETE
  rw [h]
  refine ⟨rfl, ?_, fun e2 => rfl⟩
  unfold getDeployment deleteDeployment
  rw [Redis.get_srem, Redis.get_del_self]

/-- C10 witness at a concrete store holding `dCex` under user "u". -/
theorem delete_swallows_remote_errors_witness :
    getDeployment "u" "y" (addDeployment "u" dCex Redis.empty) = some dCex ∧
    (deploymentDELETE "u" "y" (addDeployment "u" dCex Redis.empty)
      (some "boom")).1 = .success ∧
    getDeployment "u" "y" (deploymentDELETE "u" "y"
      (addDeployment "u" dCex Redis.empty) (some "boom")).2 = none := by
  have h : getDeployment "u" "y" (addDeployment "u" dCex Redis.empty) =
      some dCex := rfl
  exact ⟨h, (delete_swallows_remote_errors "u" "y" _ (some "boom") dCex h).1,
    (delete_swallows_remote_errors "u" "y" _ (some "boom") dCex h).2.1⟩

/-! ## Claim theorems: the background poll loop -/

/-- C8: one poll iteration with a successful remote query rewrites
exactly status, url and errorMessage from the response, rewrites regions
only when the response carries a nonempty list (otherwise the stored
list survives), and leaves every other field of the record as it was; an
iteration whose query threw leaves the store untouched. -/
theorem poll_writeback_frame (u i : String) (s : Redis)
    (r : DeploymentResponse) (d : Deployment)
    (h : getDeployment u i s = some d) :
    getDeployment u i (pollStep u i s (some r)).1 =
      some { d with
        status := mapReadyState r.readyState
        url := r.url
        errorMessage := r.errorMessage
        regions := if regionsNonempty r.regions then r.regions
                   else d.regions } ∧
    pollStep u i s none = (s, false) := by
  refine ⟨?_, rfl⟩
  unfold pollStep updateDeployment
  rw [h]
  show getDeployment u i (s.set (deploymentKey u i) _) = _
  unfold getDeployment
  rw [Redis.get_set_self]
  unfold applyUpdates pollUpdates
  cases hr : r.regions with
  | none => simp [regionsNonempty]
  | some l => cases l <;> simp [regionsNonempty]

/-- C8 witness: concrete record and response with empty remote regions;
the stored region list survives, the other three fields are rewritten. -/
theorem poll_writeback_frame_witness :
    getDeployment "u" "y" (addDeployment "u"
      { dCex with regions := some ["iad1"] } Redis.empty) =
      some { dCex with regions := some ["iad1"] } ∧
    getDeployment "u" "y" (pollStep "u" "y" (addDeployment "u"
      { dCex with regions := some ["iad1"] } Redis.empty)
      (some { id := "y", url := "https://new", readyState := .BUILDING,
              regions := some [], errorMessage := some "m" })).1 =
      some { dCex with regions := some ["iad1"],
                       status := DeployStatus.building,
                       url := "https://new",
                       errorMessage := some "m" } := by
  have h : getDeployment "u" "y" (addDeployment "u"
      { dCex with regions := some ["iad1"] } Redis.empty) =
      some { dCex with regions := some ["iad1"] } := rfl
  refine ⟨h, ?_⟩
  have := (poll_writeback_frame "u" "y" _
    { id := "y", url := "https://new", readyState := .BUILDING,
      regions := some [], errorMessage := some "m" } _ h).1
  rw [this]
  rfl

/-- A remote response carrying a stale non-terminal status. -/
def respStale : DeploymentResponse :=
  { id := "y", url := "https://cex", readyState := .BUILDING }

/-- C1 counterexample: the update step has no terminal-status guard. A
stored record in terminal status `ready`, fed one stale `BUILDING`
response by a fresh poll-loop invocation, is moved back to the
non-terminal status `building`. -/
theorem poll_terminal_cex :
    (getDeployment "u" "y" (addDeployment "u" dCex Redis.empty)).map
        Deployment.status = some .ready ∧
    DeployStatus.isTerminal .ready = true ∧
    (getDeployment "u" "y" (pollDeploymentStatus "u" "y"
        (addDeployment "u" dCex Redis.empty) [some respStale])).map
        Deployment.status = some .building ∧
    DeployStatus.isTerminal .building = false := by
  refine ⟨rfl, rfl, rfl, rfl⟩

/-- C1 (amended): within a single poll-loop invocation the guarantee
holds — an iteration that maps the remote status to a terminal value
performs that one write and breaks the loop, so the remaining responses
are never consumed and the stored status stays at that terminal value
for the rest of the invocation. (A separate, later invocation has no
guard against stale non-terminal remote data, per the counterexample.) -/
theorem poll_loop_stops_at_terminal (u i : String) (fuel : Nat) (s : Redis)
    (r : DeploymentResponse) (qs : List (Option DeploymentResponse))
    (d : Deployment)
    (hterm : (mapReadyState r.readyState).isTerminal = true)
    (h : getDeployment u i s = some d) :
    pollLoopAux u i (fuel + 1) s (some r :: qs) = (pollStep u i s (some r)).1 ∧
    (getDeployment u i (pollLoopAux u i (fuel + 1) s (some r :: qs))).map
      Deployment.status = some (mapReadyState r.readyState) := by
  have hstep : pollLoopAux u i (fuel + 1) s (some r :: qs) =
      (pollStep u i s (some r)).1 := by
    unfold pollLoopAux pollStep
    simp [hterm]
  refine ⟨hstep, ?_⟩
  rw [hstep, (poll_writeback_frame u i s r d h).1]
  simp

/-- C1 amended witness: a READY response on a building record ends the
loop after one write, leaving status ready. -/
theorem poll_loop_stops_at_terminal_witness :
    (mapReadyState ReadyState.READY).isTerminal = true ∧
    getDeployment "u" "y" (addDeployment "u"
      { dCex with status := .building } Redis.empty) =
      some { dCex with status := .building } ∧
    pollLoopAux "u" "y" 60 (addDeployment "u"
        { dCex with status := .building } Redis.empty)
        [some { respStale with readyState := .READY }, some respStale] =
      (pollStep "u" "y" (addDeployment "u"
        { dCex with status := .building } Redis.empty)
        (some { respStale with readyState := .READY })).1 ∧
    (getDeployment "u" "y" (pollLoopAux "u" "y" 60 (addDeployment "u"
        { dCex with status := .building } Redis.empty)
        [some { respStale with readyState := .READY }, some respStale])).map
      Deployment.status = some (mapReadyState ReadyState.READY) := by
  have h : getDeployment "u" "y" (addDeployment "u"
      { dCex with status := .building } Redis.empty) =
      some { dCex with status := .building } := rfl
  have := poll_loop_stops_at_terminal "u" "y" 59 _
    { respStale with readyState := .READY } [some respStale] _ rfl h
  exact ⟨rfl, h, this.1, this.2⟩

/-! ## Claim theorems: session validation and expiry -/

/-- C5: run requests are validated before any sandbox call — an expired
session (nowV past `timeout`), a missing session, and a paused session
are each rejected with 400 and no sandbox backend call (the third
component `false`), each with its own message, and the three messages
are pairwise distinct. -/
theorem run_validate_then_act (nowV nowC : Nat) (c : String) (hc : c ≠ "")
    (b : ExecBehavior) :
    runPOST nowV nowC (some c) none b = (.badRequest noSessionMsg, none, false) ∧
    (∀ s : Session, s.sandboxId ≠ "" → nowV > s.timeout →
      runPOST nowV nowC (some c) (some s) b =
        (.badRequest expiredMsg, some s, false)) ∧
    (∀ s : Session, s.sandboxId ≠ "" → ¬ nowV > s.timeout →
      s.status = .paused →
      runPOST nowV nowC (some c) (some s) b =
        (.badRequest pausedMsg, some s, false)) ∧
    noSessionMsg ≠ expiredMsg ∧ noSessionMsg ≠ pausedMsg ∧
    expiredMsg ≠ pausedMsg := by
  have hct : jsTruthy (some c) = true := by simp [jsTruthy, hc]
  refine ⟨?_, ?_, ?_, by decide, by decide, by decide⟩
  · simp [runPOST, hct, validateActiveSession]
  · intro s hsb hexp
    have h1 : (s.sandboxId == "") = false := by simp [hsb]
    simp [runPOST, hct, validateActiveSession, h1, hexp]
  · intro s hsb hexp hp
    have h1 : (s.sandboxId == "") = false := by simp [hsb]
    simp [runPOST, hct, validateActiveSession, h1, hexp, hp]

/-- C5 witness at concrete sessions: an expired session (timeout 5 in
the past of clock 10) and a paused session are rejected with their
distinct messages and no sandbox call; so is a missing session. -/
theorem run_validate_then_act_witness :
    ("x" : String) ≠ "" ∧
    runPOST 10 10 (some "x") none (.completes [] 0) =
      (.badRequest noSessionMsg, none, false) ∧
    runPOST 10 10 (some "x")
      (some { sandboxId := "sb", status := .running, timeout := 5,
              createdAt := 0 }) (.completes [] 0) =
      (.badRequest expiredMsg,
       some { sandboxId := "sb", status := .running, timeout := 5,
              createdAt := 0 }, false) ∧
    runPOST 10 10 (some "x")
      (some { sandboxId := "sb", status := .paused, timeout := 100,
              snapshotId := some "sn", createdAt := 0 }) (.completes [] 0) =
      (.badRequest pausedMsg,
       some { sandboxId := "sb", status := .paused, timeout := 100,
              snapshotId := some "sn", createdAt := 0 }, false) := by
  have h := run_validate_then_act 10 10 "x" (by decide) (.completes [] 0)
  exact ⟨by decide, h.1,
    h.2.1 _ (by decide) (by decide),
    h.2.2.1 _ (by decide) (by decide) rfl⟩

/-- A running session with expiry 300000 used by the C2 counterexample. -/
def sRun : Session :=
  { sandboxId := "sb", status := .running, timeout := 300000,
    createdAt := 0 }

/-- C2 counterexample: a run completing at clock 10000 on a session whose
expiry is 300000 sets the expiry to 130000 — the expiry strictly
decreases, and the change is not an increase by the 2-minute grace
window. -/
theorem run_timeout_cex :
    sRun.status = .running ∧ sRun.timeout = 300000 ∧
    ((runPOST 10000 10000 (some "x") (some sRun)
        (.completes [] 0)).2.1).map Session.timeout = some 130000 ∧
    ¬ (300000 : Nat) < 130000 ∧ (130000 : Nat) ≠ 300000 + graceWindowMs := by
  exact ⟨rfl, rfl, rfl, by decide, by decide⟩

/-- C2 (amended): a run or build that completes its stream without
exception on a validated session sets the session expiry to the
completion instant plus the fixed 2-minute grace window. The new expiry
therefore exceeds the completion instant by exactly the grace window,
but relative to the previous expiry it can decrease (whenever the old
expiry was more than the grace window in the future). -/
theorem run_build_timeout_set (nowV nowC : Nat) (c : String) (s : Session)
    (logs : List LogChunk) (ec : Int) (il : List String)
    (bl : List LogChunk) (bec : Int) (hc : c ≠ "")
    (hok : validateActiveSession nowV (some s) = .ok s s.sandboxId) :
    (runPOST nowV nowC (some c) (some s) (.completes logs ec)).2.1 =
      some { s with timeout := nowC + graceWindowMs } ∧
    (buildPOST nowV nowC (some c) (some s) (.bundler il bl bec)).2 =
      some { s with timeout := nowC + graceWindowMs } := by
  have hct : jsTruthy (some c) = true := by simp [jsTruthy, hc]
  constructor
  · simp [runPOST, hct, hok, executeCodeStreaming, updateSessionWith]
  · have hexc : (buildCode (.bundler il bl bec)).2 = none := by
      rcases Bool.eq_false_or_eq_true (bec != 0) with h | h <;>
        simp [buildCode, h]
    rcases hbc : buildCode (.bundler il bl bec) with ⟨bevs, bexc⟩
    rw [hbc] at hexc
    subst hexc
    simp [buildPOST, hct, hok, hbc, updateSessionWith]

/-- C2 amended witness: a concrete run and build at completion clock
10000 leave the expiry at exactly 10000 + 120000. -/
theorem run_build_timeout_set_witness :
    ("x" : String) ≠ "" ∧
    validateActiveSession 10000 (some sRun) = .ok sRun sRun.sandboxId ∧
    (runPOST 10000 10000 (some "x") (some sRun)
        (.completes [] 0)).2.1 =
      some { sRun with timeout := 10000 + graceWindowMs } ∧
    (buildPOST 10000 10000 (some "x") (some sRun)
        (.bundler [] [] 0)).2 =
      some { sRun with timeout := 10000 + graceWindowMs } := by
  have h := run_build_timeout_set 10000 10000 "x" sRun [] 0 [] [] 0
    (by decide) rfl
  exact ⟨by decide, rfl, h.1, h.2⟩

/-! ## Claim theorems: the snapshotId/status invariant -/

/-- The invariant the session state machine actually maintains: a
present `snapshotId` implies status paused or running. -/
def SnapInv (st : Option Session) : Prop :=
  ∀ s, st = some s → s.snapshotId.isSome = true →
    s.status = .paused ∨ s.status = .running

theorem snapInv_none : SnapInv none := by
  intro s hs _
  simp at hs

theorem snapInv_updateTimeout (t : Nat) (st : Option Session)
    (h : SnapInv st) :
    SnapInv (updateSessionWith (fun s => { s with timeout := t }) st) := by
  intro s hs hsnap
  cases st with
  | none => simp [updateSessionWith] at hs
  | some s0 =>
    simp [updateSessionWith] at hs
    subst hs
    exact h s0 rfl (by simpa using hsnap)

theorem snapInv_pause (sid : String) (st : Option Session) :
    SnapInv (updateSessionWith
      (fun s => { s with snapshotId := some sid,
                         status := SessionStatus.paused }) st) := by
  intro s hs _
  cases st with
  | none => simp [updateSessionWith] at hs
  | some s0 =>
    simp [updateSessionWith] at hs
    subst hs
    exact Or.inl rfl

theorem runPOST_session_cases (nowV nowC : Nat) (c : Option String)
    (st : Option Session) (b : ExecBehavior) :
    (runPOST nowV nowC c st b).2.1 = st ∨
    (runPOST nowV nowC c st b).2.1 =
      updateSessionWith (fun s => { s with timeout := nowC + graceWindowMs })
        st := by
  unfold runPOST
  split
  · exact Or.inl rfl
  · split
    · exact Or.inl rfl
    · rcases hE : executeCodeStreaming b with ⟨evs, exc⟩
      cases exc with
      | none => exact Or.inr rfl
      | some m => exact Or.inl rfl

theorem buildPOST_session_cases (nowV nowC : Nat) (c : Option String)
    (st : Option Session) (bb : BuildBehavior) :
    (buildPOST nowV nowC c st bb).2 = st ∨
    (buildPOST nowV nowC c st bb).2 =
      updateSessionWith (fun s => { s with timeout := nowC + graceWindowMs })
        st := by
  unfold buildPOST
  split
  · exact Or.inl rfl
  · split
    · exact Or.inl rfl
    · rcases hB : buildCode bb with ⟨bevs, bexc⟩
      cases bexc with
      | none => exact Or.inr rfl
      | some m => exact Or.inl rfl

theorem deployPOST_session_cases (nowV nowC : Nat) (u : String)
    (c : Option String) (fn : String) (cron : Option String)
    (rg : Option (List String)) (st : Option Session) (bb : BuildBehavior)
    (p2 : DeployPhase2) (store : Redis) :
    (deployPOST nowV nowC u c fn cron rg st bb p2 store).session = st ∨
    (deployPOST nowV nowC u c fn cron rg st bb p2 store).session =
      updateSessionWith (fun s => { s with timeout := nowC + graceWindowMs })
        st ∨
    ∃ sid, (deployPOST nowV nowC u c fn cron rg st bb p2 store).session =
      updateSessionWith (fun s => { s with timeout := nowC + graceWindowMs })
        (updateSessionWith
          (fun s => { s with snapshotId := some sid,
                             status := SessionStatus.paused }) st) := by
  cases hjc : jsTruthy c with
  | false => exact Or.inl (by simp [deployPOST, hjc])
  | true =>
    cases hv : validateActiveSession nowV st with
    | rejected m => exact Or.inl (by simp [deployPOST, hjc, hv])
    | ok sv sbv =>
      rcases hB : buildCode bb with ⟨bevs, bexc⟩
      rcases hM : deployBuildEvents bevs with ⟨mapped, bsucc⟩
      cases bexc with
      | some m => exact Or.inl (by simp [deployPOST, hjc, hv, hB, hM])
      | none =>
        cases bsucc with
        | false => exact Or.inl (by simp [deployPOST, hjc, hv, hB, hM])
        | true =>
          cases hcat : p2.catOk with
          | false => exact Or.inl (by simp [deployPOST, hjc, hv, hB, hM, hcat])
          | true =>
            cases hcr : p2.createResult with
            | error m =>
              exact Or.inl (by simp [deployPOST, hjc, hv, hB, hM, hcat, hcr])
            | ok dr =>
              cases hsr : p2.snapshotResult with
              | none =>
                exact Or.inr (Or.inl
                  (by simp [deployPOST, hjc, hv, hB, hM, hcat, hcr, hsr]))
              | some sid =>
                exact Or.inr (Or.inr ⟨sid,
                  by simp [deployPOST, hjc, hv, hB, hM, hcat, hcr, hsr]⟩)

theorem stepSession_preserves (op : Op) (st : Option Session)
    (h : SnapInv st) : SnapInv (stepSession op st) := by
  cases op with
  | startOp now sb ok =>
    simp only [stepSession]
    unfold sessionPOST
    split
    · intro s hs hsnap
      simp at hs
      subst hs
      simp at hsnap
    · exact h
  | runOp nV nC c b =>
    simp only [stepSession]
    rcases runPOST_session_cases nV nC c st b with hc | hc <;> rw [hc]
    · exact h
    · exact snapInv_updateTimeout _ _ h
  | buildOp nV nC c bb =>
    simp only [stepSession]
    rcases buildPOST_session_cases nV nC c st bb with hc | hc <;> rw [hc]
    · exact h
    · exact snapInv_updateTimeout _ _ h
  | deployOp nV nC u c fn cron rg bb p2 =>
    simp only [stepSession]
    rcases deployPOST_session_cases nV nC u c fn cron rg st bb p2 Redis.empty
      with hc | hc | ⟨sid, hc⟩ <;> rw [hc]
    · exact h
    · exact snapInv_updateTimeout _ _ h
    · exact snapInv_updateTimeout _ _ (snapInv_pause sid st)
  | snapshotOp r =>
    simp only [stepSession]
    cases st with
    | none =>
      have e : snapshotPOST r none = none := rfl
      rw [e]
      exact h
    | some s0 =>
      cases hsb : (s0.sandboxId == "") with
      | true =>
        have e : snapshotPOST r (some s0) = some s0 := by
          simp [snapshotPOST, hsb]
        rw [e]
        exact h
      | false =>
        cases r with
        | none =>
          have e : snapshotPOST none (some s0) = some s0 := by
            simp [snapshotPOST, hsb]
          rw [e]
          exact h
        | some sid =>
          have e : snapshotPOST (some sid) (some s0) =
              updateSessionWith
                (fun s => { s with snapshotId := some sid,
                                   status := SessionStatus.paused })
                (some s0) := by
            simp [snapshotPOST, hsb, updateSessionWith]
          rw [e]
          exact snapInv_pause sid _
  | restoreOp now body sb ok =>
    simp only [stepSession]
    unfold restorePOST
    cases ht : jsTruthy (resolveSnapshotId body st) with
    | false =>
      simp only [ht, Bool.not_false, if_true]
      exact h
    | true =>
      simp only [ht, Bool.not_true, Bool.false_eq_true, if_false]
      cases ok with
      | true =>
        intro s hs hsnap
        simp at hs
        subst hs
        exact Or.inr rfl
      | false =>
        simp only [Bool.false_eq_true, if_false]
        exact h
  | stopOp ok =>
    simp only [stepSession]
    cases st with
    | none =>
      have e : stopPOST ok none = none := rfl
      rw [e]
      exact h
    | some s0 =>
      cases hsb : (s0.sandboxId == "") with
      | true =>
        have e : stopPOST ok (some s0) = some s0 := by simp [stopPOST, hsb]
        rw [e]
        exact h
      | false =>
        cases ok with
        | true =>
          have e : stopPOST true (some s0) = none := by simp [stopPOST, hsb]
          rw [e]
          exact snapInv_none
        | false =>
          have e : stopPOST false (some s0) = some s0 := by
            simp [stopPOST, hsb]
          rw [e]
          exact h

theorem runOps_preserves_snapInv (ops : List Op) :
    ∀ st, SnapInv st →
      SnapInv (ops.foldl (fun st op => stepSession op st) st) := by
  induction ops with
  | nil => intro st h; exact h
  | cons op rest ih =>
    intro st h
    exact ih _ (stepSession_preserves op st h)

/-- C3 counterexample: start, snapshot, restore is a reachable sequence
whose final session is `running` while still carrying the restored
`snapshotId` — refuting "snapshotId is present only when status is
paused". -/
theorem session_snapshot_cex :
    (runOps [.startOp 0 "sb1" true, .snapshotOp (some "snap1"),
             .restoreOp 1000 none "sb2" true]).map Session.status =
      some SessionStatus.running ∧
    (runOps [.startOp 0 "sb1" true, .snapshotOp (some "snap1"),
             .restoreOp 1000 none "sb2" true]).bind Session.snapshotId =
      some "snap1" ∧
    SessionStatus.running ≠ SessionStatus.paused := by
  exact ⟨rfl, rfl, by decide⟩

/-- C3 (amended): in every session state reachable by any sequence of
start/run/build/deploy/snapshot/restore/stop operations, a present
`snapshotId` implies the status is paused or running — running occurs
exactly for sessions recreated by restore, which keeps the restored
snapshot id alongside status running. -/
theorem session_snapshot_invariant (ops : List Op) (s : Session)
    (h : runOps ops = some s) (hsnap : s.snapshotId.isSome = true) :
    s.status = .paused ∨ s.status = .running := by
  have := runOps_preserves_snapInv ops none snapInv_none
  exact this s h hsnap

/-- C3 amended witness: the reachable paused state after start and
snapshot satisfies the invariant. -/
theorem session_snapshot_invariant_witness :
    runOps [.startOp 0 "sb1" true, .snapshotOp (some "snap1")] =
      some { sandboxId := "sb1", status := SessionStatus.paused,
             timeout := 300000, snapshotId := some "snap1",
             createdAt := 0 } ∧
    (Option.isSome (some "snap1") = true) ∧
    (({ sandboxId := "sb1", status := SessionStatus.paused,
        timeout := 300000, snapshotId := some "snap1",
        createdAt := 0 } : Session).status = SessionStatus.paused ∨
     ({ sandboxId := "sb1", status := SessionStatus.paused,
        timeout := 300000, snapshotId := some "snap1",
        createdAt := 0 } : Session).status = SessionStatus.running) :=
  ⟨rfl, rfl,
   session_snapshot_invariant
     [.startOp 0 "sb1" true, .snapshotOp (some "snap1")]
     { sandboxId := "sb1", status := SessionStatus.paused,
       timeout := 300000, snapshotId := some "snap1", createdAt := 0 }
     (by decide) rfl⟩

/-! ## Claim theorems: the run event stream -/

/-- A non-terminal log event (stdout or stderr). -/
def isLogEv : RunEvent → Bool
  | .stdout _ => true
  | .stderr _ => true
  | _ => false

/-- A session accepted by validation, used by the stream claims. -/
def sOk : Session :=
  { sandboxId := "sb", status := .running, timeout := 1000000,
    createdAt := 0 }

/-- C4 counterexample: a run whose command completes with exit code 0
and no logs emits the exit event followed by a bare done event — the
exit event is present exactly once but is not the last event on the
stream. -/
theorem run_stream_cex :
    (runPOST 0 0 (some "x") (some sOk) (.completes [] 0)).1 =
      .sse [RunEvent.exit 0, RunEvent.doneEv] true ∧
    [RunEvent.exit 0, RunEvent.doneEv].getLast? ≠ some (RunEvent.exit 0) := by
  exact ⟨rfl, by decide⟩

/-- C4 (amended): every streaming run on a validated session closes its
stream, and the emitted sequence is either log events followed by
exactly one exit event and then one final bare done event (no exception),
or log events followed by exactly one final error event (exception) —
so exactly one exit-or-error event occurs, but on the success path the
trailing done event, not the exit event, is last. -/
theorem run_stream_amended (nowV nowC : Nat) (c : String) (st : Option Session)
    (s : Session) (sb : String) (b : ExecBehavior) (hc : c ≠ "")
    (hok : validateActiveSession nowV st = .ok s sb) :
    ∃ evs, (runPOST nowV nowC (some c) st b).1 = .sse evs true ∧
      ((∃ pre code, evs = pre ++ [RunEvent.exit code, RunEvent.doneEv] ∧
          ∀ e ∈ pre, isLogEv e = true) ∨
       (∃ pre m, evs = pre ++ [RunEvent.errorEv m] ∧
          ∀ e ∈ pre, isLogEv e = true)) := by
  have hct : jsTruthy (some c) = true := by simp [jsTruthy, hc]
  have hlog : ∀ (cs : List LogChunk), ∀ e ∈ cs.map logEvent, isLogEv e = true := by
    intro cs e he
    rw [List.mem_map] at he
    obtain ⟨ch, _, rfl⟩ := he
    unfold logEvent
    cases ch.isStderr <;> simp [isLogEv]
  cases b with
  | bunInstallFails =>
    refine ⟨[RunEvent.stderr "Failed to install Bun runtime", RunEvent.exit 1,
             RunEvent.doneEv], ?_, Or.inl ⟨[RunEvent.stderr "Failed to install Bun runtime"], 1, rfl, ?_⟩⟩
    · simp [runPOST, hct, hok, executeCodeStreaming]
    · intro e he
      simp at he
      subst he
      rfl
  | throws pre msg =>
    refine ⟨pre.map logEvent ++ [RunEvent.errorEv msg], ?_,
      Or.inr ⟨pre.map logEvent, msg, rfl, hlog pre⟩⟩
    simp [runPOST, hct, hok, executeCodeStreaming]
  | completes logs code =>
    refine ⟨logs.map logEvent ++ [RunEvent.exit code, RunEvent.doneEv], ?_,
      Or.inl ⟨logs.map logEvent, code, rfl, hlog logs⟩⟩
    simp [runPOST, hct, hok, executeCodeStreaming]

/-- C4 amended witness: concrete run with one stdout log chunk. -/
theorem run_stream_amended_witness :
    ("x" : String) ≠ "" ∧
    validateActiveSession 0 (some sOk) = .ok sOk sOk.sandboxId ∧
    ∃ evs, (runPOST 0 0 (some "x") (some sOk)
        (.completes [⟨false, "hello"⟩] 0)).1 = .sse evs true ∧
      ((∃ pre code, evs = pre ++ [RunEvent.exit code, RunEvent.doneEv] ∧
          ∀ e ∈ pre, isLogEv e = true) ∨
       (∃ pre m, evs = pre ++ [RunEvent.errorEv m] ∧
          ∀ e ∈ pre, isLogEv e = true)) :=
  ⟨by decide, rfl,
   run_stream_amended 0 0 "x" (some sOk) sOk sOk.sandboxId
     (.completes [⟨false, "hello"⟩] 0) (by decide) rfl⟩

/-! ## Claim theorems: the build pipeline exit contract -/

/-- A done event of the build stream. -/
def isDoneEv : BuildEvent → Bool
  | .done _ => true
  | _ => false

theorem deployBuildEvents_succeeded (evs : List BuildEvent) :
    (deployBuildEvents evs).2 = evs.any isDoneEv := by
  induction evs with
  | nil => rfl
  | cons e t ih =>
    cases e <;> simp [deployBuildEvents, isDoneEv, ih]

theorem countP_buildPre_done (il : List String) (bl : List LogChunk) :
    (buildPrelude ++ il.map BuildEvent.log
      ++ [BuildEvent.log "Running bun build..."]
      ++ bl.map buildLogEvent).countP isDoneEv = 0 := by
  have h1 : buildPrelude.countP isDoneEv = 0 := by decide
  have h2 : (il.map BuildEvent.log).countP isDoneEv = 0 := by
    rw [List.countP_eq_zero]
    intro x hx
    rw [List.mem_map] at hx
    obtain ⟨a, _, rfl⟩ := hx
    simp [isDoneEv]
  have h3 : (bl.map buildLogEvent).countP isDoneEv = 0 := by
    rw [List.countP_eq_zero]
    intro x hx
    rw [List.mem_map] at hx
    obtain ⟨a, _, rfl⟩ := hx
    unfold buildLogEvent
    cases a.isStderr <;> simp [isDoneEv]
  rw [List.countP_append, List.countP_append, List.countP_append, h1, h2, h3]
  rfl

theorem deployBuildEvents_of_no_done (evs : List BuildEvent)
    (h : evs.countP isDoneEv = 0) : (deployBuildEvents evs).2 = false := by
  induction evs with
  | nil => rfl
  | cons e t ih =>
    rw [List.countP_cons] at h
    cases e with
    | done d => simp [isDoneEv] at h
    | log d =>
      have := ih (by omega)
      simp [deployBuildEvents, this]
    | error d =>
      have := ih (by omega)
      simp [deployBuildEvents, this]

/-- C6: when the bundler exits non-zero the build stream ends in a final
error event and contains no done event, and the dependent deploy request
aborts before manifest generation; when the bundler exits zero the
stream contains exactly one done event, carrying the fixed artifact
path, as its last event. -/
theorem build_exit_code_contract (il : List String) (bl : List LogChunk)
    (ec : Int) :
    (ec ≠ 0 →
      (buildCode (.bundler il bl ec)).1.countP isDoneEv = 0 ∧
      (buildCode (.bundler il bl ec)).1.getLast? =
        some (.error ("Build failed with exit code " ++ toString ec)) ∧
      (∀ (nowV nowC : Nat) (u c fn : String) (cron : Option String)
         (rg : Option (List String)) (st : Option Session) (s : Session)
         (sb : String) (p2 : DeployPhase2) (store : Redis),
        c ≠ "" → validateActiveSession nowV st = .ok s sb →
        (deployPOST nowV nowC u (some c) fn cron rg st
           (.bundler il bl ec) p2 store).manifestGenerated = false)) ∧
    (ec = 0 →
      (buildCode (.bundler il bl ec)).1.countP isDoneEv = 1 ∧
      (buildCode (.bundler il bl ec)).1.getLast? =
        some (.done buildArtifactPath)) := by
  constructor
  · intro hne
    have hb : (ec != 0) = true := by simpa using hne
    have hbc : buildCode (.bundler il bl ec) =
        (buildPrelude ++ il.map BuildEvent.log
          ++ [BuildEvent.log "Running bun build..."] ++ bl.map buildLogEvent
          ++ [.error ("Build failed with exit code " ++ toString ec)],
         none) := by
      simp [buildCode, hb, List.append_assoc]
    have hbc1 : (buildCode (.bundler il bl ec)).1 =
        buildPrelude ++ il.map BuildEvent.log
          ++ [BuildEvent.log "Running bun build..."] ++ bl.map buildLogEvent
          ++ [.error ("Build failed with exit code " ++ toString ec)] := by
      rw [hbc]
    have hcnt : (buildCode (.bundler il bl ec)).1.countP isDoneEv = 0 := by
      rw [hbc1, List.countP_append, countP_buildPre_done]
      rfl
    refine ⟨hcnt, ?_, ?_⟩
    · rw [hbc1]
      exact List.getLast?_concat _
    · intro nowV nowC u c fn cron rg st s sb p2 store hc hok
      have hct : jsTruthy (some c) = true := by simp [jsTruthy, hc]
      rcases hB : buildCode (.bundler il bl ec) with ⟨bevs, bexc⟩
      have hpair : bevs = buildPrelude ++ il.map BuildEvent.log
          ++ [BuildEvent.log "Running bun build..."] ++ bl.map buildLogEvent
          ++ [.error ("Build failed with exit code " ++ toString ec)]
          ∧ bexc = none := by
        rw [hB] at hbc
        simpa using hbc
      obtain ⟨hbv, hbe⟩ := hpair
      subst hbe
      have hsucc : (deployBuildEvents bevs).2 = false := by
        apply deployBuildEvents_of_no_done
        rw [hbv, List.countP_append, countP_buildPre_done]
        rfl
      rcases hM : deployBuildEvents bevs with ⟨mapped, bsucc⟩
      rw [hM] at hsucc
      simp at hsucc
      subst hsucc
      simp [deployPOST, hct, hok, hB, hM]
  · intro h0
    subst h0
    have hbc : buildCode (.bundler il bl 0) =
        (buildPrelude ++ il.map BuildEvent.log
          ++ [BuildEvent.log "Running bun build..."] ++ bl.map buildLogEvent
          ++ [.log "Build completed successfully!",
              .done buildArtifactPath],
         none) := by
      simp [buildCode, List.append_assoc]
    have hbc1 : (buildCode (.bundler il bl 0)).1 =
        buildPrelude ++ il.map BuildEvent.log
          ++ [BuildEvent.log "Running bun build..."] ++ bl.map buildLogEvent
          ++ [.log "Build completed successfully!",
              .done buildArtifactPath] := by
      rw [hbc]
    constructor
    · rw [hbc1, List.countP_append, countP_buildPre_done]
      rfl
    · rw [hbc1]
      rw [List.getLast?_append]
      all_goals simp

/-- A deploy phase-2 behaviour for the C6 witness. -/
def p2W : DeployPhase2 :=
  { catOk := true, bundled := "",
    createResult := .ok { id := "d1", url := "https://u",
                          readyState := .READY },
    snapshotResult := none }

/-- C6 witness at bundler exit codes 2 and 0. -/
theorem build_exit_code_contract_witness :
    (2 : Int) ≠ 0 ∧ ("x" : String) ≠ "" ∧
    validateActiveSession 0 (some sOk) = .ok sOk sOk.sandboxId ∧
    (buildCode (.bundler [] [] 2)).1.countP isDoneEv = 0 ∧
    (buildCode (.bundler [] [] 2)).1.getLast? =
      some (.error ("Build failed with exit code " ++ toString (2 : Int))) ∧
    (deployPOST 0 0 "u" (some "x") "handler" none none (some sOk)
       (.bundler [] [] 2) p2W Redis.empty).manifestGenerated = false ∧
    (buildCode (.bundler [] [] 0)).1.countP isDoneEv = 1 ∧
    (buildCode (.bundler [] [] 0)).1.getLast? =
      some (.done buildArtifactPath) := by
  have h2 := (build_exit_code_contract [] [] 2).1 (by decide)
  have h0 := (build_exit_code_contract [] [] 0).2 rfl
  exact ⟨by decide, by decide, rfl, h2.1, h2.2.1,
    h2.2.2 0 0 "u" "x" "handler" none none (some sOk) sOk sOk.sandboxId
      p2W Redis.empty (by decide) rfl,
    h0.1, h0.2⟩

end Faas
